import Mathlib

/-!
Verification of the `practice` growable-array core (`src/vector.rs`,
`src/slice.rs`).

Shallow embedding of the Rust sources.  Machine pointers are modelled as
`Int` offsets (in element units) from the base address of the vector's
buffer; `usize` arithmetic that stays far below `2^64` in every reachable
state is modelled on `Nat`.  Allocator behaviour is a parameter
(`AllocEnv`): the allocator reports failure as a value, never by
terminating, exactly as the spec's §6 interface assumes.  Fallible Rust
functions returning `Result` are embedded as functions returning an
error `Option` *together with* the vector state at the moment of return,
so that "state on failure" is expressible.
-/

namespace Practice

/-- Embeds `enum VectorError { LayoutError(..), AllocError(..) }`
(vector.rs lines 7-11).  Neither constructor carries a value of the
element type `T`: the payloads (`core::alloc::LayoutError`,
`core::alloc::AllocError`) are opaque unit-like structs. -/
inductive VectorError where
  | layoutError : VectorError
  | allocError : VectorError
deriving DecidableEq, Repr

/-- One invocation of the pluggable allocator (spec §6 interface:
allocate / grow / shrink / deallocate), with the byte sizes of the
layouts passed in. -/
inductive AllocCall where
  | allocate (size : Nat) : AllocCall
  | grow (oldSize newSize : Nat) : AllocCall
  | shrinkCall (oldSize newSize : Nat) : AllocCall
  | dealloc (size : Nat) : AllocCall
deriving DecidableEq, Repr

/-- The allocator environment: for each request shape, whether the
allocator satisfies it.  (Addresses are abstracted away: the embedding
keeps the vector's live contents directly, relying on the allocator
contract that `grow`/`shrink` preserve the retained prefix of the
data.) -/
structure AllocEnv where
  allocOk : Nat → Bool
  growOk : Nat → Nat → Bool
  shrinkOk : Nat → Nat → Bool

/-- The always-succeeding allocator. -/
def okEnv : AllocEnv := ⟨fun _ => true, fun _ _ => true, fun _ _ => true⟩

/-- The always-failing allocator. -/
def failEnv : AllocEnv := ⟨fun _ => false, fun _ _ => false, fun _ _ => false⟩

/-- The value of `isize::MAX` on the 64-bit target, the bound `Layout::array` enforces. -/
def isizeMax : Nat := 9223372036854775807

/-- Embeds `Layout::array::<T>(n)` for an element type of size
`es` bytes: returns the total byte size, or an error when it exceeds
`isize::MAX`.  (Alignment padding is irrelevant for array layouts of a
fixed element type and is not modelled.) -/
def layoutArray (es n : Nat) : Option Nat :=
  if es * n ≤ isizeMax then some (es * n) else none

/-- Helper for `nextPow2`: doubles `acc` until it reaches `n`, with
enough fuel to always get there. -/
def nextPow2Go (n : Nat) : Nat → Nat → Nat
  | 0, acc => acc
  | fuel + 1, acc => if n ≤ acc then acc else nextPow2Go n fuel (2 * acc)

/-- Embeds `usize::next_power_of_two` (used at vector.rs line 70):
the smallest power of two `≥ n`, and `1` for `n = 0`.  (The release-mode
wrap-to-zero on overflow near `2^64` is not modelled; every reachable
capacity is far below that because `Layout::array` fails first for
positive element sizes.) -/
def nextPow2 (n : Nat) : Nat := nextPow2Go n n 1

/-- The owning container `Vector<T>` (vector.rs lines 33-39), projected
to its observable state: the live elements `data` (buffer cells
`[0, len)`, which are the only initialized cells) and `capacity`.
`len` is `data.length`; cells `[len, capacity)` are uninitialized and
never read by the correct code paths. -/
structure Vec (α : Type) where
  data : List α
  capacity : Nat
deriving DecidableEq, Repr

/-- Embeds `Vector::new` (vector.rs lines 42-50): empty, capacity 0, dangling buffer. -/
def Vec.new {α : Type} : Vec α := ⟨[], 0⟩

/-- Result of one fallible `&mut self` operation: the error (if any),
the vector state at the moment of return, and the allocator calls
performed during the operation. -/
structure StepResult (α : Type) where
  err : Option VectorError
  vec : Vec α
  calls : List AllocCall
deriving Repr

/-- Embeds `Vector::reserve` (vector.rs lines 67-86) for element size
`es`.  Mirrors the source line by line: the guard `len + additional >
capacity`; `Layout::array(capacity)?`; `new_capacity = (capacity +
additional).next_power_of_two()`; the `new_capacity == 0` early `Ok`;
`Layout::array(new_capacity)?`; `allocator.grow(..)?`; only then the
assignments to `self.buffer` / `self.capacity`. -/
def reserve {α : Type} (es : Nat) (env : AllocEnv) (v : Vec α) (additional : Nat) :
    StepResult α :=
  if v.data.length + additional > v.capacity then
    match layoutArray es v.capacity with
    | none => ⟨some .layoutError, v, []⟩
    | some oldSize =>
      if nextPow2 (v.capacity + additional) = 0 then ⟨none, v, []⟩
      else
        match layoutArray es (nextPow2 (v.capacity + additional)) with
        | none => ⟨some .layoutError, v, []⟩
        | some newSize =>
          if env.growOk oldSize newSize then
            ⟨none, { v with capacity := nextPow2 (v.capacity + additional) },
              [.grow oldSize newSize]⟩
          else ⟨some .allocError, v, [.grow oldSize newSize]⟩
  else ⟨none, v, []⟩

/-- Embeds `Vector::shrink` (vector.rs lines 87-102): when
`len < capacity`, computes both layouts, calls `allocator.shrink`, and
only on success sets `capacity = len`. -/
def shrink {α : Type} (es : Nat) (env : AllocEnv) (v : Vec α) : StepResult α :=
  if v.data.length < v.capacity then
    match layoutArray es v.capacity with
    | none => ⟨some .layoutError, v, []⟩
    | some oldSize =>
      match layoutArray es v.data.length with
      | none => ⟨some .layoutError, v, []⟩
      | some newSize =>
        if env.shrinkOk oldSize newSize then
          ⟨none, { v with capacity := v.data.length }, [.shrinkCall oldSize newSize]⟩
        else ⟨some .allocError, v, [.shrinkCall oldSize newSize]⟩
  else ⟨none, v, []⟩

/-- What becomes of the owned argument `value: T` during one call of
`Vector::push` (vector.rs lines 103-110). -/
inductive ValueFate where
  | storedInVector : ValueFate
  | returnedInError : ValueFate
  | droppedInPush : ValueFate
deriving DecidableEq, Repr

/-- Embeds `Vector::push` (vector.rs lines 103-110) together with the
fate of the pushed value.  `self.reserve(1)?`: on error the `?`
operator returns early; the owned parameter `value` goes out of scope
there and its destructor runs (`droppedInPush`) — `VectorError` has no
field that could carry it back to the caller.  On success,
`ptr::write` places the value into the slot at index `len` and `len`
is incremented: in the projection, `data ++ [value]`. -/
def pushFate {α : Type} (es : Nat) (env : AllocEnv) (v : Vec α) (value : α) :
    StepResult α × ValueFate :=
  match reserve es env v 1 with
  | ⟨some e, v', calls⟩ => (⟨some e, v', calls⟩, .droppedInPush)
  | ⟨none, v', calls⟩ =>
    (⟨none, { v' with data := v'.data ++ [value] }, calls⟩, .storedInVector)

/-- State part of `Vector::push`. -/
def push {α : Type} (es : Nat) (env : AllocEnv) (v : Vec α) (value : α) : StepResult α :=
  (pushFate es env v value).1

/-- Embeds `Vector::pop` (vector.rs lines 111-118): on the empty vector
reports absence; otherwise decrements `len` and reads the element that
just fell out of bounds (the last live element). -/
def pop {α : Type} (v : Vec α) : Option α × Vec α :=
  if v.data.length = 0 then (none, v)
  else (v.data.getLast?, { v with data := v.data.dropLast })

/-- Embeds `Vector::get` (vector.rs lines 119-125): `none` when
`index ≥ len`, else the element at `index`. -/
def Vec.get {α : Type} (v : Vec α) (index : Nat) : Option α :=
  if index ≥ v.data.length then none else v.data.get? index

/-- Embeds the sequence of `Vector::push` calls for a list of values,
stopping at the first reservation error (as a caller using `?` would). -/
def pushAll {α : Type} (es : Nat) (env : AllocEnv) : Vec α → List α → Option VectorError × Vec α
  | v, [] => (none, v)
  | v, x :: xs =>
    match (push es env v x).err with
    | some e => (some e, (push es env v x).vec)
    | none => pushAll es env (push es env v x).vec xs

/-- Runs `n` successive `Vector::pop` calls, collecting the returned values. -/
def pops {α : Type} : Vec α → Nat → List (Option α) × Vec α
  | v, 0 => ([], v)
  | v, n + 1 => ((pop v).1 :: (pops (pop v).2 n).1, (pops (pop v).2 n).2)

/-- The allocator calls performed by `Drop for Vector` (vector.rs lines
172-182): the pop loop destroys elements without touching the
allocator; then, exactly when `capacity > 0`, `deallocate` is invoked
with `Layout::array::<T>(capacity)` — whose byte size is
`es * capacity`, which is `0` for a zero-sized element type. -/
def dropCalls {α : Type} (es : Nat) (v : Vec α) : List AllocCall :=
  if v.capacity > 0 then [.dealloc (es * v.capacity)] else []

/-! ## RawVecPtrRange (vector.rs lines 224-330)

Pointers are element-unit `Int` offsets from the buffer base, so the
out-of-allocation positions the code can reach (`tail.sub(1)` below the
base) are representable. -/

/-- Embeds `struct RawVecPtrRange<T> { head: NonNull<T>, tail: NonNull<T> }`
(vector.rs lines 224-228). -/
structure RawVecPtrRange where
  head : Int
  tail : Int
deriving DecidableEq, Repr

/-- Embeds `From<&Vector<T>> for RawVecPtrRange<T>` (vector.rs lines
331-338): `head = buffer`, `tail = buffer.add(len)` — offsets `0` and
`len`. -/
def rawFromVec (len : Nat) : RawVecPtrRange := ⟨0, (len : Int)⟩

/-- Embeds `RawVecPtrRange::range` (vector.rs lines 230-237) — the
source really does add `range.end` to `tail` (which is already
`buffer + len`), not to `head`:
`head: self.head.add(range.start), tail: self.tail.add(range.end)`. -/
def RawVecPtrRange.rangeOp (r : RawVecPtrRange) (s e : Nat) : RawVecPtrRange :=
  ⟨r.head + (s : Int), r.tail + (e : Int)⟩

/-- Embeds `RawVecPtrRange::split` (vector.rs lines 238-250):
`([head, head+index), [head+index, tail))`. -/
def RawVecPtrRange.splitAt (r : RawVecPtrRange) (index : Nat) :
    RawVecPtrRange × RawVecPtrRange :=
  (⟨r.head, r.head + (index : Int)⟩, ⟨r.head + (index : Int), r.tail⟩)

/-- Embeds both `RawVecPtrRange::len` (line 251-253,
`tail.offset_from(head).unsigned_abs()`) and the `ExactSizeIterator`
impl (lines 326-330, `offset_from(..).abs() as usize`): the absolute
pointer distance in element units. -/
def RawVecPtrRange.rlen (r : RawVecPtrRange) : Nat := (r.tail - r.head).natAbs

/-- Embeds `Iterator for RawVecPtrRange` `next` (vector.rs lines
304-315): when `head < tail`, yields `head` and advances it; otherwise
yields nothing and leaves the state unchanged. -/
def RawVecPtrRange.next (r : RawVecPtrRange) : Option Int × RawVecPtrRange :=
  if r.head < r.tail then (some r.head, ⟨r.head + 1, r.tail⟩) else (none, r)

/-- Embeds `DoubleEndedIterator for RawVecPtrRange` `next_back`
(vector.rs lines 316-325): `tail` is decremented *unconditionally*
before the `tail >= head` test — on an exhausted iterator this moves
`tail` below `head`. -/
def RawVecPtrRange.nextBack (r : RawVecPtrRange) : Option Int × RawVecPtrRange :=
  let t := r.tail - 1
  if t ≥ r.head then (some t, ⟨r.head, t⟩) else (none, ⟨r.head, t⟩)

/-- A consumer-chosen sequence of iterator calls. -/
inductive IterOp where
  | next : IterOp
  | nextBack : IterOp
deriving DecidableEq, Repr

/-- Runs a sequence of `next` / `next_back` calls, collecting the
offsets of the elements actually yielded. -/
def runOps : RawVecPtrRange → List IterOp → List Int × RawVecPtrRange
  | r, [] => ([], r)
  | r, IterOp.next :: ops =>
    (r.next.1.toList ++ (runOps r.next.2 ops).1, (runOps r.next.2 ops).2)
  | r, IterOp.nextBack :: ops =>
    (r.nextBack.1.toList ++ (runOps r.nextBack.2 ops).1, (runOps r.nextBack.2 ops).2)

/-! ## VectorIter (vector.rs lines 184-213), the consuming iterator -/

/-- Embeds `struct VectorIter<T> { _vector: Vector<T>, iter: RawVecPtrRange<T> }`
at the level of buffer offsets: `vecLen` is `_vector.len`, which no
iterator method ever changes. -/
structure VectorIterM where
  vecLen : Nat
  iter : RawVecPtrRange
deriving DecidableEq, Repr

/-- Embeds `IntoIterator for Vector<T>` (vector.rs lines 204-213): the
iterator keeps the whole vector alive and walks `RawVecPtrRange::from(&vector)`. -/
def vectorIntoIter (len : Nat) : VectorIterM := ⟨len, rawFromVec len⟩

/-- Embeds `Iterator for VectorIter` `next` (vector.rs lines 188-193):
delegates to the raw range and `ptr::read`s the yielded slot (here: its
offset); `_vector` — in particular `_vector.len` — is untouched. -/
def VectorIterM.nextIdx (it : VectorIterM) : Option Int × VectorIterM :=
  let (res, r') := it.iter.next
  (res, ⟨it.vecLen, r'⟩)

/-- Embeds `ExactSizeIterator for VectorIter` (vector.rs lines 199-203):
`fn len(&self) -> usize { self._vector.len }`. -/
def VectorIterM.lenImpl (it : VectorIterM) : Nat := it.vecLen

/-- The buffer offsets whose contents `Drop for Vector` (vector.rs lines
172-182) reads and destroys: the `while let Some(_) = self.pop()` loop
destroys indices `len-1, len-2, …, 0`. -/
def vectorDropIndices : Nat → List Int
  | 0 => []
  | n + 1 => (n : Int) :: vectorDropIndices n

/-- When a `VectorIter` is dropped, its `_vector` field is dropped,
running `Drop for Vector` with `len` still at its original value. -/
def VectorIterM.dropIndices (it : VectorIterM) : List Int :=
  vectorDropIndices it.vecLen

/-! ## Range indexing `array[a..b]` (vector.rs lines 462-486) -/

/-- Outcome of `Index<Range<usize>> for Vector`: a panic, or the slice
`core::slice::from_ptr_range` builds from the raw range — recorded as
its start offset and its length in elements. -/
inductive SliceResult where
  | panicked : SliceResult
  | ok (startOff : Int) (length : Nat) : SliceResult
deriving DecidableEq, Repr

/-- Embeds `Index<Range<usize>> for Vector` (vector.rs lines 462-474;
`IndexMut`, lines 475-486, is byte-for-byte the same logic): panic when
`index.start >= self.len || index.end > self.len`; otherwise build
`RawVecPtrRange::from(self).range(index)` and hand it to
`slice::from_ptr_range`, whose slice starts at the range's head and has
`tail - head` elements. -/
def vectorIndexRange (len s e : Nat) : SliceResult :=
  if s ≥ len ∨ e > len then .panicked
  else
    let r := (rawFromVec len).rangeOp s e
    .ok r.head r.rlen

/-! ## Quicksort (vector.rs lines 254-293) -/

/-- Embeds `RawVecPtrRange::swap`'s effect (vector.rs lines 254-265) on
the list of elements in the range; its callers inside the sort always
pass in-range indices, and `i == j` is a no-op there as here. -/
def swapList {α : Type} (l : List α) (i j : Nat) : List α :=
  match l.get? i, l.get? j with
  | some a, some b => (l.set i b).set j a
  | _, _ => l

/-- Embeds the Lomuto scan of `quick_sort_by` (vector.rs lines 282-288):
`for j in 0..pivot_index { if f(&self[j], pivot) == Less { self.swap(i, j); i += 1 } }`.
The pivot slot (`pivot_index`) is never touched by these swaps (both
`i` and `j` stay below `pivot_index`), so passing the pivot *value* is
faithful to the source's `&self[pivot_index]` reference.  The `getD`
default is never consulted: every `j` scanned is `< pivot_index < length`. -/
def lomutoScan {α : Type} (cmp : α → α → Ordering) (pivot : α) (pivotIndex : Nat)
    (l : List α) : List α × Nat :=
  (List.range pivotIndex).foldl
    (fun acc j =>
      if cmp (acc.1.getD j pivot) pivot = Ordering.lt then (swapList acc.1 acc.2 j, acc.2 + 1)
      else acc)
    (l, 0)

/-- The two sub-ranges `quick_sort_by` recurses on (vector.rs lines
280-292): pivot is the last element; after the scan, `swap(i, pivot_index)`;
then `split(i)` yields `[0, i)` and `[i, len)` — the right part
*contains* the pivot at its head.  (The `getLast? = none` arm is
unreachable at the call site, which guards `len > 1`.) -/
def lomutoPartition {α : Type} (cmp : α → α → Ordering) (l : List α) :
    List α × List α :=
  match l.getLast? with
  | none => (l, [])
  | some pivot =>
    let pivotIndex := l.length - 1
    let scanned := lomutoScan cmp pivot pivotIndex l
    let l2 := swapList scanned.1 scanned.2 pivotIndex
    (l2.take scanned.2, l2.drop scanned.2)

/-- Embeds `RawVecPtrRange::quick_sort_by` (vector.rs lines 275-293) as
a function on the element list of the range, with explicit recursion
fuel: `some result` when the source's recursion tree has depth at most
`fuel`, `none` when the fuel runs out.  (The source recursion has no
other termination mechanism, so `(∀ fuel, … = none)` says the source
call never returns.)  Sub-ranges `[0, i)` and `[i, len)` are disjoint
contiguous pieces, so sorting them independently and concatenating is
exactly the in-place behaviour. -/
def quickSortByFuel {α : Type} (cmp : α → α → Ordering) : Nat → List α → Option (List α)
  | 0, _ => none
  | fuel + 1, l =>
    if l.length ≤ 1 then some l
    else
      match quickSortByFuel cmp fuel (lomutoPartition cmp l).1,
          quickSortByFuel cmp fuel (lomutoPartition cmp l).2 with
      | some left, some right => some (left ++ right)
      | _, _ => none

/-! ## Receiver modes (for the borrow-discipline claim) -/

/-- The Rust receiver mode of a method. -/
inductive Receiver where
  | sharedRef : Receiver
  | exclusiveRef : Receiver
  | byValue : Receiver
deriving DecidableEq, Repr

/-- From `pub fn get_mut(&self, index: usize) -> Option<&mut T>`
(vector.rs line 126): the receiver is `&self`, a *shared* reference —
the returned `&mut T` is minted from a shared borrow of the `Vector`. -/
def getMutReceiver : Receiver := .sharedRef

/-- From `pub fn get(&self, index: usize) -> Option<&T>` (vector.rs line 119). -/
def getReceiver : Receiver := .sharedRef

/-! ## Helper lemmas -/

lemma nextPow2Go_pos (n : Nat) : ∀ (fuel acc : Nat), 1 ≤ acc → 1 ≤ nextPow2Go n fuel acc
  | 0, _, h => h
  | fuel + 1, acc, h => by
    unfold nextPow2Go
    split
    · exact h
    · exact nextPow2Go_pos n fuel (2 * acc) (by omega)

lemma nextPow2_pos (n : Nat) : 1 ≤ nextPow2 n :=
  nextPow2Go_pos n n 1 le_rfl

lemma nextPow2Go_ge (n : Nat) :
    ∀ (fuel acc : Nat), n ≤ 2 ^ fuel * acc → n ≤ nextPow2Go n fuel acc
  | 0, acc, h => by simpa using h
  | fuel + 1, acc, h => by
    unfold nextPow2Go
    split
    · assumption
    · exact nextPow2Go_ge n fuel (2 * acc) (by rw [pow_succ, Nat.mul_assoc] at h; exact h)

/-- The grown capacity really covers the request: `n ≤ n.next_power_of_two()`. -/
lemma nextPow2_ge (n : Nat) : n ≤ nextPow2 n :=
  nextPow2Go_ge n n 1 (by simpa using (Nat.lt_two_pow n).le)

/-- Every early-error return of `reserve` happens before the state assignments. -/
lemma reserve_err_or_id {α : Type} (es : Nat) (env : AllocEnv) (v : Vec α) (additional : Nat) :
    (reserve es env v additional).err = none ∨ (reserve es env v additional).vec = v := by
  unfold reserve
  repeat' split
  all_goals simp

/-- Every early-error return of `shrink` happens before the state assignments. -/
lemma shrink_err_or_id {α : Type} (es : Nat) (env : AllocEnv) (v : Vec α) :
    (shrink es env v).err = none ∨ (shrink es env v).vec = v := by
  unfold shrink
  repeat' split
  all_goals simp

/-- A successful `reserve` leaves the contents alone and secures
capacity for `len + additional` elements. -/
lemma reserve_success {α : Type} (es : Nat) (env : AllocEnv) (v : Vec α) (additional : Nat)
    (hinv : v.data.length ≤ v.capacity) :
    (reserve es env v additional).err = none →
      (reserve es env v additional).vec.data = v.data ∧
        v.data.length + additional ≤ (reserve es env v additional).vec.capacity := by
  have hge := nextPow2_ge (v.capacity + additional)
  have hpos := nextPow2_pos (v.capacity + additional)
  unfold reserve
  repeat' split
  all_goals intro h
  all_goals simp_all
  all_goals omega

/-- A successful `push` appends the value and preserves the length-vs-capacity invariant. -/
lemma push_success {α : Type} (es : Nat) (env : AllocEnv) (v : Vec α) (x : α)
    (hinv : v.data.length ≤ v.capacity)
    (h : (push es env v x).err = none) :
    (push es env v x).vec.data = v.data ++ [x] ∧
      (push es env v x).vec.data.length ≤ (push es env v x).vec.capacity := by
  have hr := reserve_success es env v 1 hinv
  unfold push pushFate at h ⊢
  cases hres : reserve es env v 1 with
  | mk err vec calls =>
    rw [hres] at h hr
    cases err with
    | some e => simp at h
    | none =>
      obtain ⟨hdata, hcap⟩ := hr rfl
      simp only [] at hdata hcap ⊢
      refine ⟨by rw [hdata], ?_⟩
      simp only [List.length_append, List.length_cons, List.length_nil, hdata]
      omega

/-- A run of successful pushes appends all the values, in order, and
keeps the invariant. -/
lemma pushAll_success {α : Type} (es : Nat) (env : AllocEnv) :
    ∀ (xs : List α) (v : Vec α), v.data.length ≤ v.capacity →
      (pushAll es env v xs).1 = none →
      (pushAll es env v xs).2.data = v.data ++ xs ∧
        (pushAll es env v xs).2.data.length ≤ (pushAll es env v xs).2.capacity
  | [], v, hinv, _ => ⟨(List.append_nil v.data).symm, hinv⟩
  | x :: xs, v, hinv, h => by
    unfold pushAll at h ⊢
    cases hp : (push es env v x).err with
    | some e => rw [hp] at h; simp at h
    | none =>
      obtain ⟨hdata, hinv'⟩ := push_success es env v x hinv hp
      rw [hp] at h
      dsimp only at h ⊢
      obtain ⟨h1, h2⟩ := pushAll_success es env xs (push es env v x).vec hinv' h
      refine ⟨?_, h2⟩
      rw [h1, hdata, List.append_assoc]
      rfl

/-- Popping a vector down to empty returns the elements back-to-front. -/
lemma pops_reverse {α : Type} :
    ∀ (xs : List α) (v : Vec α), v.data = xs →
      (pops v xs.length).1 = xs.reverse.map some ∧ (pops v xs.length).2.data = [] := by
  intro xs
  induction xs using List.reverseRecOn with
  | nil => intro v hv; exact ⟨rfl, hv⟩
  | append_singleton ys y ih =>
    intro v hv
    have hlen : (ys ++ [y]).length = ys.length + 1 := by simp
    rw [hlen]
    have hpop : pop v = (some y, { v with data := ys }) := by
      unfold pop
      rw [if_neg (by rw [hv]; simp)]
      rw [hv, List.getLast?_concat, List.dropLast_concat]
    unfold pops
    rw [hpop]
    obtain ⟨h1, h2⟩ := ih { v with data := ys } rfl
    refine ⟨?_, h2⟩
    simp only [h1, List.reverse_append, List.reverse_singleton, List.map_cons,
      List.singleton_append, List.map_nil]

/-- A fresh iterator whose tail is at or below its head never yields
anything again, whatever sequence of calls follows. -/
lemma runOps_exhausted :
    ∀ (ops : List IterOp) (r : RawVecPtrRange), r.tail ≤ r.head → (runOps r ops).1 = []
  | [], _, _ => rfl
  | IterOp.next :: ops, r, h => by
    have hn : r.next = (none, r) := by
      unfold RawVecPtrRange.next
      rw [if_neg (by omega)]
    unfold runOps
    rw [hn]
    simpa using runOps_exhausted ops r h
  | IterOp.nextBack :: ops, r, h => by
    have hn : r.nextBack = (none, ⟨r.head, r.tail - 1⟩) := by
      unfold RawVecPtrRange.nextBack
      rw [if_neg (by omega)]
    unfold runOps
    rw [hn]
    simpa using runOps_exhausted ops ⟨r.head, r.tail - 1⟩ (by simp; omega)

/-- The partition of `[1, 1]`: the scan moves nothing
(`compare 1 1 ≠ .lt`, cursor stays at 0), the pivot swap is
`swap 0 1` between equal values, and `split(0)` hands the *entire*
range to the right recursive call. -/
lemma lomutoPartition_pair :
    lomutoPartition compare ([1, 1] : List Nat) = ([], [1, 1]) := by decide

/-- The source recursion never returns on `[1, 1]`: every recursive
level reproduces the same full-range call. -/
lemma quickSortByFuel_pair_none :
    ∀ fuel, quickSortByFuel compare fuel ([1, 1] : List Nat) = none := by
  intro fuel
  induction fuel with
  | zero => rfl
  | succ fuel ih =>
    rw [quickSortByFuel]
    rw [if_neg (by decide)]
    simp only [lomutoPartition_pair, ih]
    cases quickSortByFuel compare fuel ([] : List Nat) <;> rfl

/-! ## Claim theorems -/

/-- C1: the claim — `array[a..b]` is a fatal violation exactly when
`a > b` or `b > len`, and otherwise yields a view of length `b - a`
over elements `a+k` — fails on the code.  On a length-3 vector:
`array[1..2]` does not panic but the produced view has length 4
(`len - a + b`, because `RawVecPtrRange::range` adds `b` to the tail
pointer `buffer + len` instead of to the head), covering memory past
the live range; `array[3..3]` (a valid empty sub-range per the claim)
panics because the code tests `start >= len`, not `start > end`; and
`array[2..1]` (`a > b`, a violation per the claim) does not panic. -/
theorem range_index_wrong_extent :
    vectorIndexRange 3 1 2 = SliceResult.ok 1 4
  ∧ vectorIndexRange 3 1 2 ≠ SliceResult.ok 1 1
  ∧ vectorIndexRange 3 3 3 = SliceResult.panicked
  ∧ vectorIndexRange 3 2 1 = SliceResult.ok 2 2 := by decide

/-- C2: the claim — a partially consumed then dropped `VectorIter`
destroys each element exactly once — fails on the code.  On a
one-element vector: one `next()` moves the element at offset 0 out
(the caller destroys it once), and dropping the iterator then drops
`_vector`, whose `len` was never decremented, so `Drop for Vector`
pops and destroys the very same offset-0 slot again: two destructor
runs for that element, the second on a moved-out value. -/
theorem into_iter_partial_drop_double_destroys :
    (vectorIntoIter 1).nextIdx.1 = some 0
  ∧ (vectorIntoIter 1).nextIdx.2.dropIndices = [0]
  ∧ ((vectorIntoIter 1).nextIdx.1.toList
      ++ (vectorIntoIter 1).nextIdx.2.dropIndices).count 0 = 2 := by decide

/-- C3: the claim — recursion on `[0, i)` and `[i+1, len)` excluding
the pivot, every recursive call strictly shorter, termination on every
input — fails on the code.  `split(i)` hands `[i, len)` (pivot
included) to the right recursive call: on `[2, 1]` that right
sub-range is the full length-2 range (not strictly shorter), and on
`[1, 1]` with the natural-order comparator no recursion depth ever
suffices — the call never returns. -/
theorem quick_sort_recursion_keeps_pivot_and_diverges :
    (lomutoPartition compare ([2, 1] : List Nat)).2.length = 2
  ∧ (∀ fuel, quickSortByFuel compare fuel ([1, 1] : List Nat) = none) :=
  ⟨by decide, quickSortByFuel_pair_none⟩

/-- C4: the claim — `sort_by(cmp)` produces a non-decreasing
permutation for every strict-weak-ordering comparator — fails on the
code.  With the natural order on `Nat` (a strict weak ordering) and
the input `[1, 1]`, the sort never produces any output at all: no
recursion depth returns a result (the source call diverges by
unbounded recursion), so in particular no sorted permutation is
produced (and the idempotence part has no completed first run to
apply to). -/
theorem sort_by_yields_no_result_on_duplicates :
    ¬ ∃ fuel result, quickSortByFuel compare fuel ([1, 1] : List Nat) = some result := by
  rintro ⟨fuel, result, h⟩
  rw [quickSortByFuel_pair_none fuel] at h
  exact Option.noConfusion h

/-- C5: the claim — a failed reservation inside `push` never silently
drops the pushed value — fails on the code.  With a full vector
(`len == capacity == 1`) and an allocator that rejects the grow
request, `push` returns `Err(AllocError)`, a payload-free error, and
the owned `value` argument is destroyed inside `push` by the early
return of `self.reserve(1)?`: the caller gets neither the value back
in the error nor ownership of it. -/
theorem push_drops_value_on_reserve_failure :
    (pushFate 1 failEnv (⟨[0], 1⟩ : Vec Nat) 7).2 = ValueFate.droppedInPush
  ∧ (pushFate 1 failEnv (⟨[0], 1⟩ : Vec Nat) 7).1.err = some VectorError.allocError
  ∧ ValueFate.droppedInPush ≠ ValueFate.returnedInError := by decide

/-- C6: the claim — `len()` always equals the number of elements
remaining to be yielded — fails on the code, in two ways.  (1) On the
raw iterator of an empty vector, one `next_back` call decrements
`tail` below `head`, after which `len() = |tail - head| = 1` although
no sequence of further calls ever yields anything.  (2) On the
consuming iterator over a one-element vector, after one `next()` zero
elements remain (no sequence of calls yields more), yet
`ExactSizeIterator for VectorIter` returns `_vector.len = 1`. -/
theorem iterator_len_overcounts :
    RawVecPtrRange.rlen ((rawFromVec 0).nextBack.2) = 1
  ∧ (∀ ops, (runOps ((rawFromVec 0).nextBack.2) ops).1 = [])
  ∧ (vectorIntoIter 1).nextIdx.2.lenImpl = 1
  ∧ (∀ ops, (runOps (vectorIntoIter 1).nextIdx.2.iter ops).1 = []) :=
  ⟨by decide, fun ops => runOps_exhausted ops _ (by decide), by decide,
    fun ops => runOps_exhausted ops _ (by decide)⟩

/-- C7: the claim — a vector of zero-sized elements never performs an
allocator call, and `deallocate` is never invoked with a size-0
layout — fails on the code.  With element size 0, pushing one value
onto a fresh vector succeeds and tracks `len` correctly, but the
reservation path invokes `allocator.grow` with two size-0 layouts;
and dropping the resulting vector (capacity 1 > 0) invokes
`deallocate` with the size-0 layout `Layout::array::<T>(1)`. -/
theorem zst_push_and_drop_call_allocator :
    (push 0 okEnv (Vec.new : Vec Unit) ()).err = none
  ∧ (push 0 okEnv (Vec.new : Vec Unit) ()).vec.data.length = 1
  ∧ (push 0 okEnv (Vec.new : Vec Unit) ()).calls = [AllocCall.grow 0 0]
  ∧ dropCalls 0 (push 0 okEnv (Vec.new : Vec Unit) ()).vec = [AllocCall.dealloc 0] := by
  decide

/-- C8: `reserve` and `shrink` surface layout and allocation failures
as recoverable error values and, on every failure, leave the vector —
buffer contents, length and capacity — exactly as it was before the
call: every error return in the source happens before the assignments
to `self.buffer` / `self.capacity`, and no element is written on any
path.  Holds for every element size, allocator behaviour, vector
state and request. -/
theorem reserve_shrink_strong_exception_safety :
    (∀ (α : Type) (es : Nat) (env : AllocEnv) (v : Vec α) (additional : Nat)
        (e : VectorError),
      (reserve es env v additional).err = some e → (reserve es env v additional).vec = v)
  ∧ (∀ (α : Type) (es : Nat) (env : AllocEnv) (v : Vec α) (e : VectorError),
      (shrink es env v).err = some e → (shrink es env v).vec = v) := by
  constructor
  · intro α es env v additional e h
    rcases reserve_err_or_id es env v additional with hc | hc
    · rw [h] at hc; exact Option.noConfusion hc
    · exact hc
  · intro α es env v e h
    rcases shrink_err_or_id es env v with hc | hc
    · rw [h] at hc; exact Option.noConfusion hc
    · exact hc

/-- Witness for C8: a concrete failing `reserve` (grow rejected on a
full length-1 vector) and a concrete failing `shrink` (shrink rejected
with `len 0 < capacity 1`), both leaving the vector untouched. -/
theorem reserve_shrink_strong_exception_safety_witness :
    ((reserve 1 failEnv (⟨[5], 1⟩ : Vec Nat) 1).err = some VectorError.allocError
      ∧ (reserve 1 failEnv (⟨[5], 1⟩ : Vec Nat) 1).vec = ⟨[5], 1⟩)
  ∧ ((shrink 1 failEnv (⟨[], 1⟩ : Vec Nat)).err = some VectorError.allocError
      ∧ (shrink 1 failEnv (⟨[], 1⟩ : Vec Nat)).vec = ⟨[], 1⟩) :=
  ⟨⟨by decide, reserve_shrink_strong_exception_safety.1 Nat 1 failEnv ⟨[5], 1⟩ 1
      VectorError.allocError (by decide)⟩,
   ⟨by decide, reserve_shrink_strong_exception_safety.2 Nat 1 failEnv ⟨[], 1⟩
      VectorError.allocError (by decide)⟩⟩

/-- C9: for every sequence of pushes that completes without a
reservation error, starting from `Vector::new`: the final length is
`n`, the capacity is at least `n`, `get(i)` returns the `i`-th pushed
value for every in-range `i` (and absence beyond), `n` pops return the
values in exact reverse order of insertion, and one further pop on the
then-empty vector reports absence. -/
theorem push_pop_lifo (α : Type) (es : Nat) (env : AllocEnv) (xs : List α)
    (h : (pushAll es env Vec.new xs).1 = none) :
    (pushAll es env Vec.new xs).2.data.length = xs.length
  ∧ xs.length ≤ (pushAll es env Vec.new xs).2.capacity
  ∧ (∀ i, Vec.get (pushAll es env Vec.new xs).2 i = xs.get? i)
  ∧ (pops (pushAll es env Vec.new xs).2 xs.length).1 = xs.reverse.map some
  ∧ (pop (pops (pushAll es env Vec.new xs).2 xs.length).2).1 = none := by
  obtain ⟨hdata, hinv⟩ := pushAll_success es env xs Vec.new (by simp [Vec.new]) h
  rw [show (Vec.new : Vec α).data = [] from rfl, List.nil_append] at hdata
  obtain ⟨hp1, hp2⟩ := pops_reverse xs (pushAll es env Vec.new xs).2 hdata
  refine ⟨by rw [hdata], by rw [hdata] at hinv; exact hinv, ?_, hp1, ?_⟩
  · intro i
    unfold Vec.get
    rw [hdata]
    by_cases hi : i ≥ xs.length
    · rw [if_pos hi]
      exact (List.get?_eq_none.mpr hi).symm
    · rw [if_neg hi]
  · unfold pop
    rw [if_pos (by rw [hp2]; rfl)]

/-- Witness for C9: pushing `[10, 20, 30]` with element size 1 under a
succeeding allocator completes, and the conclusions hold there. -/
theorem push_pop_lifo_witness :
    (pushAll 1 okEnv Vec.new [10, 20, 30]).1 = none
  ∧ ((pushAll 1 okEnv Vec.new [10, 20, 30]).2.data.length = 3
    ∧ 3 ≤ (pushAll 1 okEnv Vec.new [10, 20, 30]).2.capacity
    ∧ (∀ i, Vec.get (pushAll 1 okEnv Vec.new [10, 20, 30]).2 i = [10, 20, 30].get? i)
    ∧ (pops (pushAll 1 okEnv Vec.new [10, 20, 30]).2 3).1 = [some 30, some 20, some 10]
    ∧ (pop (pops (pushAll 1 okEnv Vec.new [10, 20, 30]).2 3).2).1 = none) :=
  ⟨by decide, push_pop_lifo Nat 1 okEnv [10, 20, 30] (by decide)⟩

/-- C10: the claim — a mutable element reference can only be obtained
through exclusive access to the `Vector`, and no mutable view can
coexist with other views — fails on the code.  `Vector::get_mut`
(vector.rs line 126) is declared with a shared receiver,
`fn get_mut(&self, ..) -> Option<&mut T>`: it mints a `&mut T` out of
a `&self`, so two calls on the same shared reference yield two
simultaneously live mutable references to the same element, which the
borrow checker accepts because the signature lies about exclusivity. -/
theorem get_mut_takes_shared_receiver :
    getMutReceiver = Receiver.sharedRef ∧ getMutReceiver ≠ Receiver.exclusiveRef := by
  decide

end Practice
